import Mathlib

/-!
Verification development for the Datadog MCP console assistant (`sre.py`).

The file shallowly embeds the tool-call bridge of the source file:
the transport (`call_mcp_tool`), the JSON-RPC response correlator, the
payload normalizer with its monitor-alert post-filter, and the tool-call
extractor of `process_user_input` (fenced-block / brace candidate search,
comment stripping, `tool_name` validation, alert argument repair).

Python strings are modelled as Lean `String`s restricted to the ASCII
behaviour of `str.lower`, `str.upper`, `str.strip` and of the `re`
character classes; every string appearing in the claims is ASCII.
`json.loads` is modelled by an executable recursive-descent parser over
the JSON grammar accepted by Python's strict decoder (objects keep the
last duplicate key at the first key's position, exactly like `dict`);
`\uXXXX` escapes naming lone surrogates are rejected by the model since
Lean's `Char` cannot carry them (no claim exercises them).
Python exceptions are modelled by `Option`: `none` means the Python code
raised at the corresponding point.
-/

set_option autoImplicit false

namespace Sre

/-- The `\x7b` character, written by name so that patterns never spell a
raw brace. -/
def lbrace : Char := Char.ofNat 123

/-- The `\x7d` character. -/
def rbrace : Char := Char.ofNat 125

/-- The backquote character (`Char.ofNat 96`). -/
def backquote : Char := Char.ofNat 96

/-- Whitespace stripped by Python `str.strip()` (ASCII fragment). -/
def isPySpace (c : Char) : Bool :=
  c = ' ' || c = '\t' || c = '\n' || c = '\r' || c = '\x0b' || c = '\x0c'

/-- Whitespace matched by the regex class `\s` (ASCII fragment). -/
def isReSpace (c : Char) : Bool :=
  c = ' ' || c = '\t' || c = '\n' || c = '\r' || c = '\x0b' || c = '\x0c'

/-- Python `str.strip()` (ASCII whitespace). -/
def pyStrip (s : String) : String :=
  ⟨((s.toList.dropWhile isPySpace).reverse.dropWhile isPySpace).reverse⟩

/-- Python `str.lower()` (ASCII fragment). -/
def pyLower (s : String) : String := ⟨s.toList.map Char.toLower⟩

/-- Python `str.upper()` (ASCII fragment). -/
def pyUpper (s : String) : String := ⟨s.toList.map Char.toUpper⟩

/-- `pat` is a prefix of `cs`. -/
def headMatches (pat text : List Char) : Bool :=
  match pat, text with
  | [], _ => true
  | p :: ps, t :: ts => p = t && headMatches ps ts
  | _ :: _, [] => false

/-- `pat` occurs somewhere in `cs` (Python `pat in cs`). -/
def hasSubL (pat : List Char) : List Char → Bool
  | [] => headMatches pat []
  | c :: rest => headMatches pat (c :: rest) || hasSubL pat rest

/-- Python substring containment `sub in s`. -/
def hasSub (s sub : String) : Bool := hasSubL sub.toList s.toList

/-- Python `s.split('\n')` over the character list. -/
def splitLinesL : List Char → List (List Char)
  | [] => [[]]
  | c :: rest =>
    if c = '\n' then [] :: splitLinesL rest
    else
      match splitLinesL rest with
      | l :: ls => (c :: l) :: ls
      | [] => [[c]]

/-- Python `s.split('\n')`. -/
def splitLines (s : String) : List String := (splitLinesL s.toList).map (⟨·⟩)

/-! ### The JSON value model

`Json.num` keeps the numeric literal exactly as lexed: the source never
computes with numbers, it only re-serializes or filters, so the literal
is the faithful observable. -/

inductive Json where
  | null
  | bool (b : Bool)
  | num (lit : String)
  | str (s : String)
  | arr (items : List Json)
  | obj (fields : List (String × Json))

/-- First binding of `key` in an association list.  Objects produced by
the parser never carry duplicate keys, mirroring Python `dict`. -/
def lookupKv : List (String × Json) → String → Option Json
  | [], _ => none
  | (k, v) :: rest, key => if k = key then some v else lookupKv rest key

/-- Python `key in dict`. -/
def hasKeyKv (kvs : List (String × Json)) (key : String) : Bool :=
  (lookupKv kvs key).isSome

/-- Python `dict[key] = v`: replace in place, else append (insertion
order preserved, exactly like `dict`). -/
def objSetKv : List (String × Json) → String → Json → List (String × Json)
  | [], k, v => [(k, v)]
  | (k', v') :: rest, k, v =>
    if k' = k then (k, v) :: rest else (k', v') :: objSetKv rest k v

/-- `dict.get(key)` on a JSON value; `none` for a missing key or a
non-object. -/
def jsonGet (j : Json) (key : String) : Option Json :=
  match j with
  | Json.obj kvs => lookupKv kvs key
  | _ => none

/-- Python `key in j` for a JSON object (`False` is never produced for a
non-object here; callers that can meet a non-object handle it). -/
def hasKeyJ (j : Json) (key : String) : Bool :=
  match j with
  | Json.obj kvs => hasKeyKv kvs key
  | _ => false

def isNull : Json → Bool
  | Json.null => true
  | _ => false

/-- Python `isinstance(j, list)`, keeping the items on success. -/
def asArr : Json → Option (List Json)
  | Json.arr items => some items
  | _ => none

/-! ### Model of `json.loads`

Recursive-descent parser for the grammar Python's strict decoder
accepts: standard JSON plus the `NaN` / `Infinity` / `-Infinity`
literals, raw control characters rejected inside strings, objects
collapsing duplicate keys with the last value at the first position. -/

/-- JSON inter-token whitespace (`' '`, `'\t'`, `'\n'`, `'\r'`). -/
def skipWs : List Char → List Char
  | [] => []
  | c :: rest =>
    if c = ' ' || c = '\t' || c = '\n' || c = '\r' then skipWs rest
    else c :: rest

def hexVal (c : Char) : Option Nat :=
  let n := c.toNat
  if n < 58 && 47 < n then some (n - 48)
  else if n < 103 && 96 < n then some (n - 87)
  else if n < 71 && 64 < n then some (n - 55)
  else none

/-- Numeric value of four hex digits, `none` when one is not hex. -/
def hex4 (h1 h2 h3 h4 : Char) : Option Nat := do
  let a ← hexVal h1
  let b ← hexVal h2
  let c ← hexVal h3
  let d ← hexVal h4
  some (((a * 16 + b) * 16 + c) * 16 + d)

/-- String body parser: `cs` starts right after the opening quote;
`acc` is the reversed content so far.  A `\uXXXX` high surrogate must
be followed by a `\uXXXX` low surrogate (the pair is combined); a lone
surrogate is rejected (model restriction, see the header). -/
def pStrGo : List Char → List Char → Option (String × List Char)
  | [], _ => none
  | c :: rest, acc =>
    if c = '"' then some (⟨acc.reverse⟩, rest)
    else if c = '\\' then
      match rest with
      | [] => none
      | e :: rest2 =>
        if e = '"' then pStrGo rest2 ('"' :: acc)
        else if e = '\\' then pStrGo rest2 ('\\' :: acc)
        else if e = '/' then pStrGo rest2 ('/' :: acc)
        else if e = 'b' then pStrGo rest2 ('\x08' :: acc)
        else if e = 'f' then pStrGo rest2 ('\x0c' :: acc)
        else if e = 'n' then pStrGo rest2 ('\n' :: acc)
        else if e = 'r' then pStrGo rest2 ('\r' :: acc)
        else if e = 't' then pStrGo rest2 ('\t' :: acc)
        else if e = 'u' then
          match rest2 with
          | h1 :: h2 :: h3 :: h4 :: rest3 =>
            match hex4 h1 h2 h3 h4 with
            | none => none
            | some n =>
              if n < 0xD800 || 0xE000 ≤ n then
                pStrGo rest3 (Char.ofNat n :: acc)
              else if n < 0xDC00 then
                match rest3 with
                | '\\' :: 'u' :: k1 :: k2 :: k3 :: k4 :: rest4 =>
                  match hex4 k1 k2 k3 k4 with
                  | none => none
                  | some m =>
                    if 0xDC00 ≤ m && m < 0xE000 then
                      pStrGo rest4
                        (Char.ofNat (0x10000 + (n - 0xD800) * 0x400 + (m - 0xDC00)) :: acc)
                    else none
                | _ => none
              else none
          | _ => none
        else none
    else if c.toNat < 32 then none
    else pStrGo rest (c :: acc)

/-- Longest digit prefix. -/
def spanDigits : List Char → List Char × List Char
  | [] => ([], [])
  | c :: rest =>
    if c.isDigit then
      let (d, r) := spanDigits rest
      (c :: d, r)
    else ([], c :: rest)

/-- Optional fraction part `.[0-9]+` appended to the token. -/
def pFrac (tok : List Char) (cs : List Char) : List Char × List Char :=
  match cs with
  | '.' :: d :: rest =>
    if d.isDigit then
      let (ds, r) := spanDigits rest
      (tok ++ '.' :: d :: ds, r)
    else (tok, cs)
  | _ => (tok, cs)

/-- Optional exponent part `[eE][+-]?[0-9]+` appended to the token. -/
def pExp (tok : List Char) (cs : List Char) : List Char × List Char :=
  match cs with
  | e :: rest =>
    if e = 'e' || e = 'E' then
      match rest with
      | s :: rest2 =>
        if s = '+' || s = '-' then
          match rest2 with
          | d :: rest3 =>
            if d.isDigit then
              let (ds, r) := spanDigits rest3
              (tok ++ e :: s :: d :: ds, r)
            else (tok, cs)
          | [] => (tok, cs)
        else if s.isDigit then
          let (ds, r) := spanDigits rest2
          (tok ++ e :: s :: ds, r)
        else (tok, cs)
      | [] => (tok, cs)
    else (tok, cs)
  | [] => (tok, cs)

/-- Lex a JSON number token (sign, strict int part, optional frac/exp);
unconsumed tail characters surface as errors at the enclosing
delimiter, exactly as in Python's decoder. -/
def pNumber (cs : List Char) : Option (List Char × List Char) :=
  let (sign, cs1) :=
    match cs with
    | c :: rest => if c = '-' then (['-'], rest) else (([] : List Char), cs)
    | [] => ([], cs)
  match cs1 with
  | [] => none
  | c :: rest =>
    if c = '0' then
      let (tok1, r1) := pFrac (sign ++ ['0']) rest
      some (pExp tok1 r1)
    else if c.isDigit then
      let (ds, r0) := spanDigits rest
      let (tok1, r1) := pFrac (sign ++ c :: ds) r0
      some (pExp tok1 r1)
    else none

mutual

/-- Parse one JSON value (leading whitespace allowed); `fuel` bounds the
recursion and is chosen large enough in `json_loads`. -/
def pVal : Nat → List Char → Option (Json × List Char)
  | 0, _ => none
  | fuel + 1, cs =>
    match skipWs cs with
    | [] => none
    | c :: rest =>
      if c = lbrace then
        match skipWs rest with
        | c2 :: rest2 =>
          if c2 = rbrace then some (Json.obj [], rest2)
          else pObjItems fuel (c2 :: rest2) []
        | [] => none
      else if c = '[' then
        match skipWs rest with
        | c2 :: rest2 =>
          if c2 = ']' then some (Json.arr [], rest2)
          else pArrItems fuel (c2 :: rest2) []
        | [] => none
      else if c = '"' then
        match pStrGo rest [] with
        | some (s, r) => some (Json.str s, r)
        | none => none
      else if headMatches "true".toList (c :: rest) then
        some (Json.bool true, (c :: rest).drop 4)
      else if headMatches "false".toList (c :: rest) then
        some (Json.bool false, (c :: rest).drop 5)
      else if headMatches "null".toList (c :: rest) then
        some (Json.null, (c :: rest).drop 4)
      else if headMatches "NaN".toList (c :: rest) then
        some (Json.num "NaN", (c :: rest).drop 3)
      else if headMatches "Infinity".toList (c :: rest) then
        some (Json.num "Infinity", (c :: rest).drop 8)
      else if headMatches "-Infinity".toList (c :: rest) then
        some (Json.num "-Infinity", (c :: rest).drop 9)
      else
        match pNumber (c :: rest) with
        | some (tok, r) => some (Json.num ⟨tok⟩, r)
        | none => none

/-- Array items, after at least one value is known to follow. -/
def pArrItems : Nat → List Char → List Json → Option (Json × List Char)
  | 0, _, _ => none
  | fuel + 1, cs, acc =>
    match pVal fuel cs with
    | none => none
    | some (v, rest) =>
      match skipWs rest with
      | ',' :: rest2 => pArrItems fuel rest2 (acc ++ [v])
      | ']' :: rest2 => some (Json.arr (acc ++ [v]), rest2)
      | _ => none

/-- Object items, positioned at a key (whitespace already skipped). -/
def pObjItems : Nat → List Char → List (String × Json) →
    Option (Json × List Char)
  | 0, _, _ => none
  | fuel + 1, cs, acc =>
    match cs with
    | c :: rest =>
      if c = '"' then
        match pStrGo rest [] with
        | none => none
        | some (k, r1) =>
          match skipWs r1 with
          | ':' :: r2 =>
            match pVal fuel r2 with
            | none => none
            | some (v, r3) =>
              let acc2 := objSetKv acc k v
              match skipWs r3 with
              | ',' :: r4 => pObjItems fuel (skipWs r4) acc2
              | c4 :: r4 =>
                if c4 = rbrace then some (Json.obj acc2, r4) else none
              | [] => none
          | _ => none
      else none
    | [] => none

end

/-- Model of Python `json.loads`: `none` when the call raises
`JSONDecodeError`. -/
def json_loads (s : String) : Option Json :=
  match pVal (2 * s.length + 4) s.toList with
  | some (j, rest) => if skipWs rest = [] then some j else none
  | none => none

/-! ### Comment stripping (`process_user_input`, lines 241-245)

`re.sub(r'//.*?($|\n)', '', t)` followed by
`re.sub(r'/\*.*?\*/', '', t, flags=re.DOTALL)`.  In the line-comment
pattern, `$` (no `re.MULTILINE`) matches only at the end of the string
or just before a final newline, so a comment closed by the string's
final newline keeps that newline while a mid-string comment consumes
its newline. -/

/-- One pass of the line-comment substitution; the flag says whether we
are inside a `//` comment. -/
def stripLCGo : List Char → Bool → List Char
  | [], _ => []
  | c :: rest, true =>
    if c = '\n' then
      if rest.isEmpty then [c] else stripLCGo rest false
    else stripLCGo rest true
  | '/' :: '/' :: rest, false => stripLCGo rest true
  | c :: rest, false => c :: stripLCGo rest false

/-- `re.sub(r'//.*?($|\n)', '', s)`. -/
def stripLineComments (s : String) : String := ⟨stripLCGo s.toList false⟩

/-- Does `*/` occur in the list? -/
def hasStarSlash : List Char → Bool
  | [] => false
  | c :: rest => (c = '*' && headMatches ['/'] rest) || hasStarSlash rest

/-- `re.sub(r'/\*.*?\*/', '', s, flags=re.DOTALL)`: each `/*` whose
closing `*/` exists is removed through that first `*/`; a `/*` without
any later `*/` matches nothing (and then no later `/*` can match
either, so the remainder is kept verbatim).  The flag says whether we
are inside a block comment — entered only when a closing `*/` lies
ahead, mirroring the regex's requirement of a full match. -/
def stripBCGo : List Char → Bool → List Char
  | [], _ => []
  | '*' :: '/' :: rest, true => stripBCGo rest false
  | _ :: rest, true => stripBCGo rest true
  | '/' :: '*' :: rest, false =>
    if hasStarSlash rest then stripBCGo rest true
    else '/' :: '*' :: rest
  | c :: rest, false => c :: stripBCGo rest false

/-- `re.sub(r'/\*.*?\*/', '', s, flags=re.DOTALL)`. -/
def stripBlockComments (s : String) : String := ⟨stripBCGo s.toList false⟩

/-- Lines 242-245: clean a candidate (line comments, then block
comments) before `json.loads`. -/
def cleanCandidate (s : String) : String :=
  stripBlockComments (stripLineComments s)

/-! ### Candidate search (`process_user_input`, lines 228-238) -/

/-- Rest of the list just after the first ``` occurrence. -/
def splitAtTriple : List Char → Option (List Char)
  | [] => none
  | c :: rest =>
    if c = backquote && headMatches [backquote, backquote] rest then
      some (rest.drop 2)
    else splitAtTriple rest

/-- Content up to (excluding) the next ``` occurrence; `none` when the
fence is not closed. -/
def takeUntilTriple : List Char → Option (List Char)
  | [] => none
  | c :: rest =>
    if c = backquote && headMatches [backquote, backquote] rest then
      some []
    else (takeUntilTriple rest).map (c :: ·)

/-- The `(?:json)?` optional tag right after the opening fence. -/
def dropJsonTag (cs : List Char) : List Char :=
  if headMatches "json".toList cs then cs.drop 4 else cs

/-- Maximal `\s*` suffix removed (the lazy group never keeps trailing
whitespace that the following `\s*` can absorb). -/
def dropTrailingReSpace (cs : List Char) : List Char :=
  (cs.reverse.dropWhile isReSpace).reverse

/-- First match group of
`re.findall(r'```(?:json)?\s*(.*?)\s*```', reply, re.DOTALL)`:
first fence, optional `json` tag, leading/trailing `\s*` stripped,
content up to the next fence. -/
def fencedCandidate (cs : List Char) : Option (List Char) :=
  match splitAtTriple cs with
  | none => none
  | some rest =>
    match takeUntilTriple ((dropJsonTag rest).dropWhile isReSpace) with
    | none => none
    | some content => some (dropTrailingReSpace content)

/-- `re.search(r'(\{.*\})', reply, re.DOTALL)`: greedy, so the group
runs from the first `\x7b` to the last `\x7d` (when the latter comes
after the former). -/
def braceCandidate (cs : List Char) : Option (List Char) :=
  let suf := cs.dropWhile (fun c => c != lbrace)
  if suf.isEmpty then none
  else
    let r := (suf.reverse.dropWhile (fun c => c != rbrace)).reverse
    if r.isEmpty then none else some r

/-- Lines 228-238: first fenced block, else first brace-delimited
substring, else no candidate. -/
def extractCandidate (reply : String) : Option String :=
  match fencedCandidate reply.toList with
  | some c => some ⟨c⟩
  | none =>
    match braceCandidate reply.toList with
    | some c => some ⟨c⟩
    | none => none

/-- Is the parsed candidate a dict with a `tool_name` key
(line 248)? -/
def isToolCallShape (j : Json) : Bool :=
  match j with
  | Json.obj kvs => hasKeyKv kvs "tool_name"
  | _ => false

/-- Lines 225-250: candidate search, comment cleaning, `json.loads`
(a parse error is caught and yields no tool call), and the
`tool_name`-dict validation. -/
def parseToolCall (reply : String) : Option Json :=
  match extractCandidate reply with
  | none => none
  | some cand =>
    match json_loads (cleanCandidate cand) with
    | some j => if isToolCallShape j then some j else none
    | none => none

/-! ### Alert-intent detection (`process_user_input`, lines 206-209)

`re.search(r'(get|list|show).*\b(alert|alerts|alerting)\b',
user_message.lower())`.  `.` does not cross a newline (no `re.DOTALL`);
`\b` is a transition between a `\w` character and a non-`\w` position
(ASCII fragment). -/

def isWordChar (c : Char) : Bool := c.isAlphanum || c = '_'

/-- Does `pat` occur at index `i` of `cs`? -/
def occursAt (cs : List Char) (i : Nat) (pat : List Char) : Bool :=
  headMatches pat (cs.drop i)

/-- Is there a `\b` boundary at position `i` (between `i - 1` and
`i`)? -/
def boundaryAt (cs : List Char) (i : Nat) : Bool :=
  let beforeW := if i = 0 then false else
    match cs.get? (i - 1) with
    | some c => isWordChar c
    | none => false
  let afterW :=
    match cs.get? i with
    | some c => isWordChar c
    | none => false
  beforeW != afterW

/-- No newline among positions `[a, b)` of `cs` (the `.*` gap). -/
def noNewline (cs : List Char) (a b : Nat) : Bool :=
  ((cs.drop a).take (b - a)).all (fun c => c != '\n')

/-- The verb alternatives of the alert regex. -/
def alertVerbs : List (List Char) := ["get".toList, "list".toList, "show".toList]

/-- The alert-word alternatives of the alert regex. -/
def alertWords : List (List Char) :=
  ["alert".toList, "alerts".toList, "alerting".toList]

/-- `re.search` of the alert-intent pattern over the lowered message:
some verb occurrence is followed (with no intervening newline) by a
word-bounded alert word. -/
def isAlertRequest (user_message : String) : Bool :=
  let cs := (pyLower user_message).toList
  (List.range (cs.length + 1)).any fun i =>
    alertVerbs.any fun v =>
      occursAt cs i v &&
        (List.range (cs.length + 1)).any fun j =>
          decide (i + v.length ≤ j) && noNewline cs (i + v.length) j &&
            alertWords.any fun w =>
              occursAt cs j w && boundaryAt cs j && boundaryAt cs (j + w.length)

/-! ### Argument repair and cleaning (`process_user_input`,
lines 252-269) -/

/-- Lines 253-258: when the user asked for alerts and the tool is the
monitor fetch, inject `groupStates = ["alert"]` unless the extracted
arguments already have that key.  When the `arguments` value is not a
dict, the Python `in` test or item assignment raises; the exception is
caught at line 259 *after* `tool_call` was already assigned, so the
tool call survives unrepaired — hence the non-dict branch returns the
input unchanged. -/
def repairToolCall (is_alert_request : Bool) (tc : Json) : Json :=
  if is_alert_request &&
      (match jsonGet tc "tool_name" with
       | some (Json.str s) => s = "get_monitors"
       | _ => false) then
    match (jsonGet tc "arguments").getD (Json.obj []) with
    | Json.obj akvs =>
      if hasKeyKv akvs "groupStates" then tc
      else
        match tc with
        | Json.obj kvs =>
          Json.obj (objSetKv kvs "arguments"
            (Json.obj (akvs ++ [("groupStates", Json.arr [Json.str "alert"])])))
        | _ => tc
    | _ => tc
  else tc

/-- Line 269: drop arguments whose value is `None`. -/
def cleanArgs (kvs : List (String × Json)) : List (String × Json) :=
  kvs.filter (fun p => !(isNull p.2))

/-- Lines 266-269: the argument map of the invocation actually
dispatched: `tool_call.get('arguments', {})` then `None`-cleaning.
`none` when `arguments` is present but not a dict, where
`arguments.items()` raises. -/
def invocationArgs (tc : Json) : Option (List (String × Json)) :=
  match tc with
  | Json.obj kvs =>
    match lookupKv kvs "arguments" with
    | none => some (cleanArgs [])
    | some (Json.obj akvs) => some (cleanArgs akvs)
    | some _ => none
  | _ => none

/-- Lines 206-258 end to end: extract a tool call from the model reply
and apply the alert repair driven by the user's message. -/
def extractToolCall (user_message reply : String) : Option Json :=
  (parseToolCall reply).map (repairToolCall (isAlertRequest user_message))

/-! ### Transport and correlation (`call_mcp_tool`) -/

/-- Line 98. -/
def defaultGroupStates : Json :=
  Json.arr [Json.str "alert", Json.str "warn", Json.str "no data", Json.str "ok"]

/-- Lines 96-98: the transport itself injects `groupStates` for a
monitor fetch that lacks it. -/
def transportArgs (tool_name : String) (arguments : List (String × Json)) :
    List (String × Json) :=
  if tool_name = "get_monitors" && !(hasKeyKv arguments "groupStates") then
    arguments ++ [("groupStates", defaultGroupStates)]
  else arguments

/-- Lines 100-109: the JSON-RPC request object. -/
def buildRpcRequest (request_id tool_name : String)
    (arguments : List (String × Json)) : Json :=
  Json.obj [("jsonrpc", Json.str "2.0"),
            ("id", Json.str request_id),
            ("method", Json.str "tools/call"),
            ("params", Json.obj [("name", Json.str tool_name),
                                 ("arguments", Json.obj arguments)])]

/-- The request line written to the subprocess for a call at time
`now_ms` (line 100: `request_id = f"req-{int(time.time()*1000)}"`). -/
def sentRequest (tool_name : String) (arguments : List (String × Json))
    (now_ms : Nat) : Json :=
  buildRpcRequest ("req-" ++ toString now_ms) tool_name
    (transportArgs tool_name arguments)

/-- Outcome of the spawned process: either `communicate` raised
`subprocess.TimeoutExpired` (whatever the process had written to its
error stream is lost, recorded here only to state claims about it), or
the process exited with a return code and captured streams. -/
inductive ProcOutcome where
  | timeout (pendingStderr : String)
  | exited (returncode : Int) (stdout stderr : String)

/-- `str(subprocess.TimeoutExpired(MCP_SERVER_COMMAND, 15))`, the text
reaching the generic handler at line 196 on a timeout. -/
def timeoutExcStr : String :=
  "Command '['node', 'mcp-server-datadog/build/index.js']' timed out after 15 seconds"

/-- Line 145: does this parsed line carry the expected `id`?  A
non-dict raises at `.get` and is skipped by the bare `except`, and a
non-string `id` value never equals the string `request_id`. -/
def idMatchesJ (j : Json) (request_id : String) : Bool :=
  match j with
  | Json.obj kvs =>
    match lookupKv kvs "id" with
    | some (Json.str s) => s = request_id
    | _ => false
  | _ => false

/-- Does a raw output line parse as JSON and match the request id? -/
def matchesLine (line request_id : String) : Bool :=
  match json_loads line with
  | some j => idMatchesJ j request_id
  | none => false

/-- Lines 141-149: first JSON line whose `id` equals the request id;
non-JSON lines and non-matching lines are skipped. -/
def findResponse : List String → String → Option Json
  | [], _ => none
  | line :: rest, request_id =>
    match json_loads line with
    | some j =>
      if idMatchesJ j request_id then some j else findResponse rest request_id
    | none => findResponse rest request_id

/-- Line 157: `response['result']['content'][0]['text']` as the decoded
value, whatever its type.  `none` when a navigation step raises
(`KeyError` / `IndexError` / `TypeError`, all caught at line 185). -/
def extractContentVal (result : Json) : Option Json :=
  match result with
  | Json.obj kvs =>
    match lookupKv kvs "content" with
    | some (Json.arr (c0 :: _)) =>
      match c0 with
      | Json.obj c0kvs => lookupKv c0kvs "text"
      | _ => none
    | _ => none
  | _ => none

/-- Python `sub in v` on a decoded value: substring test for a string,
key test for a dict, element-equality test for a list; `none` models
the `TypeError` raised on any other type (caught at line 185). -/
def pyInVal (sub : String) (v : Json) : Option Bool :=
  match v with
  | Json.str s => some (hasSub s sub)
  | Json.obj kvs => some (hasKeyKv kvs sub)
  | Json.arr items =>
    some (items.any fun it =>
      match it with
      | Json.str s => s = sub
      | _ => false)
  | _ => none

/-! ### Payload normalization (`call_mcp_tool`, lines 160-183) -/

/-- Lines 161-169: the embedded-JSON heuristic.  It runs *before* any
parse attempt: when `': ['` occurs anywhere, re-slice from the first
`'['` (the inner `find` cannot return -1 then); else when `': \x7b'`
occurs, re-slice from the first `'\x7b'`. -/
def json_part (raw_text_result : String) : String :=
  if hasSub raw_text_result ": [" then
    ⟨raw_text_result.toList.dropWhile (fun c => c != '[')⟩
  else if hasSub raw_text_result (": " ++ ⟨[lbrace]⟩) then
    ⟨raw_text_result.toList.dropWhile (fun c => c != lbrace)⟩
  else raw_text_result

/-- Line 176 predicate: `monitor.get("status", "").upper() == "ALERT"`.
`none` when the entry is not a dict (no `.get`) or the status value is
not a string (no `.upper`), which raises `AttributeError`. -/
def isAlertMonitor (m : Json) : Option Bool :=
  match m with
  | Json.obj kvs =>
    match lookupKv kvs "status" with
    | none => some (pyUpper "" == "ALERT")
    | some (Json.str s) => some (pyUpper s == "ALERT")
    | some _ => none
  | _ => none

/-- Line 176 comprehension: keep the alert-status entries; the first
raising entry aborts the whole comprehension. -/
def filterAlertList : List Json → Option (List Json)
  | [] => some []
  | m :: rest =>
    match isAlertMonitor m, filterAlertList rest with
    | some b, some r => some (if b then m :: r else r)
    | _, _ => none

/-- Line 174 test: `"status:alert" in arguments.get("filter", "").lower()`.
`none` when the `filter` value is not a string (`.lower` raises). -/
def filterIsAlert (arguments : List (String × Json)) : Option Bool :=
  match lookupKv arguments "filter" with
  | none => some (hasSub (pyLower "") "status:alert")
  | some (Json.str s) => some (hasSub (pyLower s) "status:alert")
  | some _ => none

/-- Lines 173-179: the monitor-alert post-filter on the parsed payload.
The `and`-chain short-circuits, so the `filter` argument is only
touched for a monitor fetch whose payload is a list.  `none` when the
Python code raises (escaping to the generic handler at line 196). -/
def alertPostFilter (tool_name : String) (arguments : List (String × Json))
    (parsed_result : Json) : Option Json :=
  if tool_name = "get_monitors" then
    match asArr parsed_result with
    | some l =>
      match filterIsAlert arguments with
      | none => none
      | some true =>
        match filterAlertList l with
        | some alert_monitors => some (Json.arr alert_monitors)
        | none => none
      | some false => some parsed_result
    | none => some parsed_result
  else some parsed_result

/-- Exhaustive model of the dict returned by `call_mcp_tool`. -/
inductive ToolResult where
  /-- `{"result": value}` (lines 178-179). -/
  | ok (value : Json)
  /-- `{"error": message}` with a fully determined message text. -/
  | err (message : String)
  /-- Line 187: `{"error": "Could not extract content...", "raw_response": r}`. -/
  | contentError (raw_response : Json)
  /-- Line 189: `{"error": f"MCP error: ..."}` carrying the `error` value. -/
  | mcpError (e : Json)
  /-- Line 191: `{"error": "Invalid MCP response format.", "raw_response": r}`. -/
  | invalidFormat (raw_response : Json)
  /-- Line 198 reached through an `AttributeError` inside normalization:
  `{"error": f"Error calling MCP tool: ..."}`, message text not modelled. -/
  | pyException

/-- Lines 160-183: parse the (re-sliced) payload text, post-filter, and
fall back to the raw text when parsing fails. -/
def normalizePayload (tool_name : String) (arguments : List (String × Json))
    (raw_text_result : String) : ToolResult :=
  match json_loads (json_part raw_text_result) with
  | some parsed_result =>
    match alertPostFilter tool_name arguments parsed_result with
    | some v => ToolResult.ok v
    | none => ToolResult.pyException
  | none => ToolResult.ok (Json.str raw_text_result)

/-- Lines 154-191: dispatch on the matched response object.  A `text`
value that is not a string still runs the `': ['` / `': {'` membership
tests: when one succeeds, the subsequent `.find` raises
`AttributeError`, which escapes the line-185 handler to the generic one
at line 196 (`pyException`); when both fail (or the `in` itself raises
`TypeError`), the resulting `TypeError` is caught at line 185. -/
def handleResponse (tool_name : String) (arguments : List (String × Json))
    (response : Json) : ToolResult :=
  if hasKeyJ response "result" then
    match jsonGet response "result" with
    | some result =>
      match extractContentVal result with
      | some (Json.str raw_text_result) =>
        normalizePayload tool_name arguments raw_text_result
      | some t =>
        (match pyInVal ": [" t with
         | none => ToolResult.contentError response
         | some true => ToolResult.pyException
         | some false =>
           match pyInVal (": " ++ (⟨[lbrace]⟩ : String)) t with
           | none => ToolResult.contentError response
           | some true => ToolResult.pyException
           | some false => ToolResult.contentError response)
      | none => ToolResult.contentError response
    | none => ToolResult.contentError response
  else if hasKeyJ response "error" then
    ToolResult.mcpError ((jsonGet response "error").getD Json.null)
  else ToolResult.invalidFormat response

/-- `call_mcp_tool` (lines 90-198) as a function of the tool name, the
caller's arguments, the clock reading used for the request id, and the
subprocess outcome. -/
def call_mcp_tool (tool_name : String) (args : List (String × Json))
    (now_ms : Nat) (outcome : ProcOutcome) : ToolResult :=
  let arguments := transportArgs tool_name args
  let request_id := "req-" ++ toString now_ms
  match outcome with
  | ProcOutcome.timeout _ =>
    ToolResult.err ("Error calling MCP tool: " ++ timeoutExcStr)
  | ProcOutcome.exited returncode stdout_data stderr_data =>
    if returncode != 0 then
      ToolResult.err ("MCP server process failed with exit code " ++
        toString returncode ++ ": " ++ stderr_data)
    else if (pyStrip stdout_data).isEmpty then
      ToolResult.err "Received empty response from MCP server."
    else
      match findResponse (splitLines (pyStrip stdout_data)) request_id with
      | none => ToolResult.err "Could not find valid JSON-RPC response in MCP output."
      | some response => handleResponse tool_name arguments response

/-! ### Helper lemmas -/

theorem lookupKv_append_left {l1 : List (String × Json)} {k : String} {v : Json}
    (l2 : List (String × Json)) (h : lookupKv l1 k = some v) :
    lookupKv (l1 ++ l2) k = some v := by
  induction l1 with
  | nil => simp [lookupKv] at h
  | cons p rest ih =>
    rw [List.cons_append, lookupKv]
    rw [lookupKv] at h
    split at h
    · rename_i heq
      rw [if_pos heq]
      exact h
    · rename_i hne
      rw [if_neg hne]
      exact ih h

theorem lookupKv_append_right {l1 : List (String × Json)} {k : String}
    (l2 : List (String × Json)) (h : lookupKv l1 k = none) :
    lookupKv (l1 ++ l2) k = lookupKv l2 k := by
  induction l1 with
  | nil => simp
  | cons p rest ih =>
    rw [lookupKv] at h
    split at h
    · simp at h
    · rename_i hne
      rw [List.cons_append, lookupKv, if_neg hne]
      exact ih h

theorem lookupKv_objSetKv_self (kvs : List (String × Json)) (k : String) (v : Json) :
    lookupKv (objSetKv kvs k v) k = some v := by
  induction kvs with
  | nil => simp [objSetKv, lookupKv]
  | cons p rest ih =>
    rw [objSetKv]
    split
    · simp [lookupKv]
    · rename_i hne
      rw [lookupKv, if_neg hne]
      exact ih

theorem lookupKv_filter_none {kvs : List (String × Json)} {k : String}
    (p : String × Json → Bool) (h : lookupKv kvs k = none) :
    lookupKv (kvs.filter p) k = none := by
  induction kvs with
  | nil => simp [lookupKv]
  | cons q rest ih =>
    rw [lookupKv] at h
    split at h
    · simp at h
    · rename_i hne
      rw [List.filter_cons]
      split
      · rw [lookupKv, if_neg hne]
        exact ih h
      · exact ih h

theorem headMatches_append_self (p t : List Char) :
    headMatches p (p ++ t) = true := by
  induction p with
  | nil => rw [headMatches]
  | cons c rest ih => simpa [headMatches] using ih

theorem headMatches_append_left {p l : List Char} (t : List Char)
    (h : headMatches p l = true) : headMatches p (l ++ t) = true := by
  induction p generalizing l with
  | nil => rw [headMatches]
  | cons c rest ih =>
    match l with
    | [] => rw [headMatches] at h; exact absurd h (by simp)
    | b :: bs =>
      rw [headMatches] at h
      simp at h
      rw [List.cons_append, headMatches]
      simp [h.1]
      exact ih h.2

theorem hasSubL_of_headMatches {pat l : List Char} (h : headMatches pat l = true) :
    hasSubL pat l = true := by
  match l with
  | [] => rw [hasSubL]; exact h
  | c :: rest => rw [hasSubL]; simp [h]

theorem hasSubL_append_right {pat : List Char} (x : List Char) {y : List Char}
    (h : hasSubL pat y = true) : hasSubL pat (x ++ y) = true := by
  induction x with
  | nil => simpa using h
  | cons c rest ih =>
    rw [List.cons_append, hasSubL]
    simp [ih]

theorem hasSubL_append_left {pat x : List Char} (y : List Char)
    (h : hasSubL pat x = true) : hasSubL pat (x ++ y) = true := by
  induction x with
  | nil =>
    rw [hasSubL] at h
    exact hasSubL_of_headMatches (headMatches_append_left y h)
  | cons c rest ih =>
    rw [hasSubL] at h
    rw [List.cons_append, hasSubL]
    rcases Bool.or_eq_true_iff.mp h with h1 | h2
    · have h1' := headMatches_append_left (l := c :: rest) y h1
      rw [List.cons_append] at h1'
      simp [h1']
    · simp [ih h2]

theorem hasSubL_mid (x y z : List Char) : hasSubL y (x ++ (y ++ z)) = true :=
  hasSubL_append_right x (hasSubL_of_headMatches (headMatches_append_self y z))

theorem asArr_eq_some {j : Json} {l : List Json} (h : asArr j = some l) :
    j = Json.arr l := by
  cases j <;> simp [asArr] at h
  rw [h]

theorem alertPostFilter_eq_arr (arguments : List (String × Json)) (l : List Json) :
    alertPostFilter "get_monitors" arguments (Json.arr l) =
      match filterIsAlert arguments with
      | none => none
      | some true => (filterAlertList l).map Json.arr
      | some false => some (Json.arr l) := by
  rw [alertPostFilter, if_pos rfl]
  show (match filterIsAlert arguments with
        | none => none
        | some true =>
          match filterAlertList l with
          | some am => some (Json.arr am)
          | none => none
        | some false => some (Json.arr l)) = _
  cases filterIsAlert arguments with
  | none => rfl
  | some b =>
    cases b with
    | true => cases filterAlertList l <;> rfl
    | false => rfl

theorem filterAlertList_total {l : List Json}
    (h : ∀ m ∈ l, (isAlertMonitor m).isSome = true) :
    filterAlertList l = some (l.filter (fun m => isAlertMonitor m == some true)) := by
  induction l with
  | nil => simp [filterAlertList]
  | cons m rest ih =>
    have hm : (isAlertMonitor m).isSome = true := h m (by simp)
    obtain ⟨b, hb⟩ := Option.isSome_iff_exists.mp hm
    have hrest := ih (fun m' hm' => h m' (by simp [hm']))
    rw [filterAlertList, hb, hrest, List.filter_cons]
    cases b with
    | true => simp [hb]
    | false => simp [hb]

theorem filterAlertList_fix {l l' : List Json}
    (h : filterAlertList l = some l') : filterAlertList l' = some l' := by
  induction l generalizing l' with
  | nil =>
    rw [filterAlertList] at h
    simp at h
    subst h
    rw [filterAlertList]
  | cons m rest ih =>
    rw [filterAlertList] at h
    match hm : isAlertMonitor m, hr : filterAlertList rest with
    | some b, some r =>
      rw [hm, hr] at h
      simp at h
      subst h
      cases b with
      | true =>
        simp only [if_true]
        rw [filterAlertList, hm, ih hr]
        simp
      | false =>
        simpa using ih hr
    | some b, none => rw [hm, hr] at h; simp at h
    | none, _ => rw [hm] at h; simp at h

theorem findResponse_all_unmatched {lines : List String} {request_id : String}
    (h : ∀ l ∈ lines, matchesLine l request_id = false) :
    findResponse lines request_id = none := by
  induction lines with
  | nil => rw [findResponse]
  | cons line rest ih =>
    have hline := h line (by simp)
    have hrest := ih (fun l hl => h l (by simp [hl]))
    rw [findResponse]
    rw [matchesLine] at hline
    split
    · rename_i j hj
      rw [hj] at hline
      have hline' : idMatchesJ j request_id = false := hline
      rw [if_neg (by simp [hline'])]
      exact hrest
    · exact hrest

theorem findResponse_first {pre : List String} {line request_id : String}
    (post : List String) {j : Json}
    (hpre : ∀ l ∈ pre, matchesLine l request_id = false)
    (hparse : json_loads line = some j) (hid : idMatchesJ j request_id = true) :
    findResponse (pre ++ line :: post) request_id = some j := by
  induction pre with
  | nil =>
    rw [List.nil_append, findResponse, hparse]
    simp [hid]
  | cons l0 rest ih =>
    have h0 := hpre l0 (by simp)
    have hrest := ih (fun l hl => hpre l (by simp [hl]))
    rw [List.cons_append, findResponse]
    rw [matchesLine] at h0
    split
    · rename_i j0 hj0
      rw [hj0] at h0
      have h0' : idMatchesJ j0 request_id = false := h0
      rw [if_neg (by simp [h0'])]
      exact hrest
    · exact hrest

theorem stripLCGo_true_of_no_newline {l : List Char} (h : ∀ c ∈ l, c ≠ '\n') :
    stripLCGo l true = [] := by
  induction l with
  | nil => rfl
  | cons c rest ih =>
    have hc : c ≠ '\n' := h c (by simp)
    rw [stripLCGo, if_neg hc]
    exact ih (fun c' hc' => h c' (by simp [hc']))

theorem stripLCGo_false_cons_ne {c : Char} (l : List Char) (hc : ¬(c = '/')) :
    stripLCGo (c :: l) false = c :: stripLCGo l false := by
  rw [stripLCGo.eq_def]
  split <;> simp_all

theorem stripLCGo_false_pre : ∀ (pre post : List Char), '/' ∉ pre →
    stripLCGo (pre ++ '/' :: '/' :: post) false = pre ++ stripLCGo post true := by
  intro pre
  induction pre with
  | nil => intro post _; rfl
  | cons c rest ih =>
    intro post h
    have hc : ¬(c = '/') := fun hcc => h (by simp [hcc])
    rw [List.cons_append, stripLCGo_false_cons_ne _ hc,
      ih post (fun hm => h (by simp [hm]))]
    rfl

theorem headMatches_single {a b : Char} (bs : List Char) :
    headMatches [a] (b :: bs) = decide (a = b) := by
  show (decide (a = b) && headMatches [] bs) = decide (a = b)
  rw [headMatches]
  simp

theorem hasStarSlash_append (mid post : List Char) :
    hasStarSlash (mid ++ '*' :: '/' :: post) = true := by
  induction mid with
  | nil =>
    rw [List.nil_append, hasStarSlash, headMatches_single]
    simp
  | cons c rest ih =>
    rw [List.cons_append, hasStarSlash, ih]
    simp

theorem stripBCGo_true_cons (c : Char) (l : List Char)
    (h : (decide (c = '*') && headMatches ['/'] l) = false) :
    stripBCGo (c :: l) true = stripBCGo l true := by
  rw [stripBCGo.eq_def]
  split <;> simp_all [headMatches_single]

theorem stripBCGo_true_boundary : ∀ (mid post : List Char),
    hasStarSlash mid = false →
    stripBCGo (mid ++ '*' :: '/' :: post) true = stripBCGo post false := by
  intro mid
  induction mid with
  | nil => intro post _; rfl
  | cons c rest ih =>
    intro post h
    rw [hasStarSlash, Bool.or_eq_false_iff] at h
    rw [List.cons_append]
    have hcond : (decide (c = '*') && headMatches ['/'] (rest ++ '*' :: '/' :: post)) = false := by
      cases rest with
      | nil =>
        rw [List.nil_append, headMatches_single]
        simp
      | cons d m2 =>
        have h1 := h.1
        rw [headMatches_single] at h1
        rw [List.cons_append, headMatches_single]
        exact h1
    rw [stripBCGo_true_cons _ _ hcond]
    exact ih post h.2

theorem stripBCGo_false_cons_ne {c : Char} (l : List Char) (hc : ¬(c = '/')) :
    stripBCGo (c :: l) false = c :: stripBCGo l false := by
  rw [stripBCGo.eq_def]
  split <;> simp_all

theorem stripBCGo_block : ∀ (pre mid post : List Char), '/' ∉ pre →
    hasStarSlash mid = false →
    stripBCGo (pre ++ '/' :: '*' :: (mid ++ '*' :: '/' :: post)) false =
      pre ++ stripBCGo post false := by
  intro pre
  induction pre with
  | nil =>
    intro mid post _ hmid
    rw [List.nil_append, stripBCGo,
      if_pos (by rw [hasStarSlash_append]),
      stripBCGo_true_boundary mid post hmid]
    rfl
  | cons c rest ih =>
    intro mid post hpre hmid
    have hc : ¬(c = '/') := fun hcc => hpre (by simp [hcc])
    rw [List.cons_append, stripBCGo_false_cons_ne _ hc,
      ih mid post (fun hm => hpre (by simp [hm])) hmid]
    rfl

theorem headMatches_refl (p : List Char) : headMatches p p = true := by
  induction p with
  | nil => rw [headMatches]
  | cons c rest ih => simpa [headMatches] using ih

theorem lookupKv_eq_none_of_not_hasKey {kvs : List (String × Json)} {k : String}
    (h : hasKeyKv kvs k = false) : lookupKv kvs k = none := by
  rw [hasKeyKv] at h
  cases ho : lookupKv kvs k with
  | none => rfl
  | some v => rw [ho] at h; simp at h

/-! ### Claim theorems -/

/-- C1 (counterexample): the payload `{"a": [1]}` is already valid JSON,
so under the claim the normalizer would return its direct parse; the
code instead applies the `': ['` heuristic first, re-slices to `[1]}`,
fails to parse that, and falls back to the raw text. -/
theorem claim_C1_counterexample :
    json_loads "\x7b\"a\": [1]\x7d" = some (Json.obj [("a", Json.arr [Json.num "1"])]) ∧
    normalizePayload "list_dashboards" [] "\x7b\"a\": [1]\x7d" =
      ToolResult.ok (Json.str "\x7b\"a\": [1]\x7d") :=
  ⟨rfl, rfl⟩

/-- C1 (amended): the normalizer applies the embedded-JSON heuristic
*before* its single parse attempt: when the payload contains `': ['` it
re-slices from the first `'['` (else `': \x7b'` / first `'\x7b'`), and
then parses the possibly re-sliced text once.  A payload containing
neither marker substring is parsed directly, so a valid-JSON payload
without the markers is returned as its direct parse (modulo the alert
post-filter). -/
theorem claim_C1 :
    (∀ (tool_name : String) (args : List (String × Json)) (raw : String) (j v : Json),
      hasSub raw ": [" = false →
      hasSub raw (": " ++ (⟨[lbrace]⟩ : String)) = false →
      json_loads raw = some j →
      alertPostFilter tool_name args j = some v →
      normalizePayload tool_name args raw = ToolResult.ok v)
    ∧ (∀ raw : String, hasSub raw ": [" = true →
      json_part raw = ⟨raw.toList.dropWhile (fun c => c != '[')⟩)
    ∧ (∀ raw : String, hasSub raw ": [" = false →
      hasSub raw (": " ++ (⟨[lbrace]⟩ : String)) = true →
      json_part raw = ⟨raw.toList.dropWhile (fun c => c != lbrace)⟩) := by
  refine ⟨?_, ?_, ?_⟩
  · intro tool_name args raw j v h1 h2 hparse hfilter
    have hpart : json_part raw = raw := by
      rw [json_part, if_neg (by simp [h1]), if_neg (by simp [h2])]
    rw [normalizePayload, hpart, hparse]
    simp only [hfilter]
  · intro raw h
    rw [json_part, if_pos (by simp [h])]
  · intro raw h1 h2
    rw [json_part, if_neg (by simp [h1]), if_pos (by simp [h2])]

/-- C1 witness: a marker-free valid payload is returned as its direct
parse, a `': ['` payload is re-sliced from the first bracket, and a
`': \x7b'` payload is re-sliced from the first brace. -/
theorem claim_C1_witness :
    hasSub "[1]" ": [" = false ∧
    json_loads "[1]" = some (Json.arr [Json.num "1"]) ∧
    normalizePayload "list_dashboards" [] "[1]" = ToolResult.ok (Json.arr [Json.num "1"]) ∧
    json_part "x: [1]" = "[1]" ∧
    json_part "d: \x7b\"a\":1\x7d" = "\x7b\"a\":1\x7d" := by
  refine ⟨rfl, rfl, ?_, ?_, ?_⟩
  · exact claim_C1.1 "list_dashboards" [] "[1]" (Json.arr [Json.num "1"])
      (Json.arr [Json.num "1"]) rfl rfl rfl rfl
  · exact (claim_C1.2.1 "x: [1]" rfl).trans rfl
  · exact (claim_C1.2.2 "d: \x7b\"a\":1\x7d" rfl rfl).trans rfl

/-- C2: for a monitor fetch whose payload parses to a list, a `filter`
argument containing `status:alert` (case-insensitively) restricts the
result to the entries whose `status` field upper-cases to `ALERT`;
without such a filter argument — the key absent, or its string value
lacking the marker, i.e. the code's `"status:alert" in
arguments.get("filter", "").lower()` test false — the full list is
returned unfiltered; and the post-filter leaves every non-list parse
untouched. -/
theorem claim_C2 :
    (∀ (args : List (String × Json)) (raw : String) (l : List Json),
      json_loads (json_part raw) = some (Json.arr l) →
      filterIsAlert args = some true →
      (∀ m ∈ l, (isAlertMonitor m).isSome = true) →
      normalizePayload "get_monitors" args raw =
        ToolResult.ok (Json.arr (l.filter (fun m => isAlertMonitor m == some true))))
    ∧ (∀ (tool_name : String) (args : List (String × Json)) (raw : String) (l : List Json),
      json_loads (json_part raw) = some (Json.arr l) →
      filterIsAlert args = some false →
      normalizePayload tool_name args raw = ToolResult.ok (Json.arr l))
    ∧ (∀ (tool_name : String) (args : List (String × Json)) (j : Json),
      asArr j = none → alertPostFilter tool_name args j = some j) := by
  refine ⟨?_, ?_, ?_⟩
  · intro args raw l hparse hfa htot
    have hfl := filterAlertList_total htot
    have hpf : alertPostFilter "get_monitors" args (Json.arr l) =
        some (Json.arr (l.filter (fun m => isAlertMonitor m == some true))) := by
      rw [alertPostFilter_eq_arr, hfa, hfl]
      rfl
    rw [normalizePayload, hparse]
    simp only [hpf]
  · intro tool_name args raw l hparse hfa
    rw [normalizePayload, hparse]
    by_cases htn : tool_name = "get_monitors"
    · have hpf : alertPostFilter tool_name args (Json.arr l) = some (Json.arr l) := by
        rw [htn, alertPostFilter_eq_arr, hfa]
      simp only [hpf]
    · have hpf : alertPostFilter tool_name args (Json.arr l) = some (Json.arr l) := by
        rw [alertPostFilter, if_neg htn]
      simp only [hpf]
  · intro tool_name args j hj
    rw [alertPostFilter]
    by_cases htn : tool_name = "get_monitors"
    · rw [if_pos htn, hj]
    · rw [if_neg htn]

/-- C2 witness: the spec's example payload filtered with the alert
hint, returned whole both with no `filter` argument and with a
`"status:ok"` filter that lacks the marker, plus a non-list value
passing through untouched. -/
theorem claim_C2_witness :
    normalizePayload "get_monitors" [("filter", Json.str "status:alert")]
      "Monitors: [\x7b\"status\":\"Alert\"\x7d,\x7b\"status\":\"OK\"\x7d]" =
      ToolResult.ok (Json.arr [Json.obj [("status", Json.str "Alert")]]) ∧
    normalizePayload "get_monitors" []
      "Monitors: [\x7b\"status\":\"Alert\"\x7d,\x7b\"status\":\"OK\"\x7d]" =
      ToolResult.ok (Json.arr [Json.obj [("status", Json.str "Alert")],
                               Json.obj [("status", Json.str "OK")]]) ∧
    normalizePayload "get_monitors" [("filter", Json.str "status:ok")]
      "Monitors: [\x7b\"status\":\"Alert\"\x7d,\x7b\"status\":\"OK\"\x7d]" =
      ToolResult.ok (Json.arr [Json.obj [("status", Json.str "Alert")],
                               Json.obj [("status", Json.str "OK")]]) ∧
    alertPostFilter "get_monitors" [] (Json.str "hi") = some (Json.str "hi") := by
  refine ⟨?_, ?_, ?_, ?_⟩
  · have h := claim_C2.1 [("filter", Json.str "status:alert")]
      "Monitors: [\x7b\"status\":\"Alert\"\x7d,\x7b\"status\":\"OK\"\x7d]"
      [Json.obj [("status", Json.str "Alert")], Json.obj [("status", Json.str "OK")]]
      rfl rfl (by decide)
    exact h.trans (by rfl)
  · exact claim_C2.2.1 "get_monitors" []
      "Monitors: [\x7b\"status\":\"Alert\"\x7d,\x7b\"status\":\"OK\"\x7d]"
      [Json.obj [("status", Json.str "Alert")], Json.obj [("status", Json.str "OK")]]
      rfl rfl
  · exact claim_C2.2.1 "get_monitors" [("filter", Json.str "status:ok")]
      "Monitors: [\x7b\"status\":\"Alert\"\x7d,\x7b\"status\":\"OK\"\x7d]"
      [Json.obj [("status", Json.str "Alert")], Json.obj [("status", Json.str "OK")]]
      rfl rfl
  · exact claim_C2.2.2 "get_monitors" [] (Json.str "hi") rfl

/-- C6: when both the direct parse and the parse of the re-sliced text
fail, the normalizer returns the payload text verbatim as the result
value (never an error). -/
theorem claim_C6 (tool_name : String) (args : List (String × Json)) (raw : String)
    (hdirect : json_loads raw = none)
    (hsliced : json_loads (json_part raw) = none) :
    normalizePayload tool_name args raw = ToolResult.ok (Json.str raw) := by
  rw [normalizePayload, hsliced]

/-- C6 witness at an unparsable payload. -/
theorem claim_C6_witness :
    json_loads "not json at all" = none ∧
    json_loads (json_part "not json at all") = none ∧
    normalizePayload "get_monitors" [] "not json at all" =
      ToolResult.ok (Json.str "not json at all") :=
  ⟨rfl, rfl, claim_C6 "get_monitors" [] "not json at all" rfl rfl⟩

/-- C9: the alert post-filter is idempotent on decoded values: whatever
it returns is a fixed point under the same tool name and arguments,
so re-filtering an already-filtered monitor list changes nothing. -/
theorem claim_C9 (tool_name : String) (arguments : List (String × Json)) (j j' : Json)
    (h : alertPostFilter tool_name arguments j = some j') :
    alertPostFilter tool_name arguments j' = some j' := by
  by_cases htn : tool_name = "get_monitors"
  · subst htn
    cases hja : asArr j with
    | none =>
      have hpf : alertPostFilter "get_monitors" arguments j = some j := by
        rw [alertPostFilter, if_pos rfl, hja]
      rw [hpf] at h
      have hj : j = j' := by simpa using h
      subst hj
      exact hpf
    | some l =>
      have hj := asArr_eq_some hja
      subst hj
      rw [alertPostFilter_eq_arr] at h
      cases hfa : filterIsAlert arguments with
      | none => rw [hfa] at h; exact absurd h (by simp)
      | some b =>
        rw [hfa] at h
        cases b with
        | true =>
          cases hfl : filterAlertList l with
          | none => rw [hfl] at h; exact absurd h (by simp)
          | some r =>
            rw [hfl] at h
            have hj : Json.arr r = j' := by simpa using h
            subst hj
            rw [alertPostFilter_eq_arr, hfa, filterAlertList_fix hfl]
            rfl
        | false =>
          have hj : Json.arr l = j' := by simpa using h
          subst hj
          rw [alertPostFilter_eq_arr, hfa]
  · rw [alertPostFilter, if_neg htn] at h
    have hj : j = j' := by simpa using h
    subst hj
    rw [alertPostFilter, if_neg htn]

/-- C9 witness: filtering the spec's example list once and then again. -/
theorem claim_C9_witness :
    alertPostFilter "get_monitors" [("filter", Json.str "status:alert")]
      (Json.arr [Json.obj [("status", Json.str "ALERT")],
                 Json.obj [("status", Json.str "OK")]]) =
      some (Json.arr [Json.obj [("status", Json.str "ALERT")]]) ∧
    alertPostFilter "get_monitors" [("filter", Json.str "status:alert")]
      (Json.arr [Json.obj [("status", Json.str "ALERT")]]) =
      some (Json.arr [Json.obj [("status", Json.str "ALERT")]]) :=
  ⟨rfl, claim_C9 "get_monitors" [("filter", Json.str "status:alert")]
    (Json.arr [Json.obj [("status", Json.str "ALERT")],
               Json.obj [("status", Json.str "OK")]])
    (Json.arr [Json.obj [("status", Json.str "ALERT")]]) rfl⟩

/-- C3: when the user's message matches the alert-intent regex and the
extracted call names `get_monitors` with no `groupStates` key in its
arguments, the dispatched invocation's arguments carry
`groupStates = ["alert"]`; when the key is already present, the repair
returns the tool call unchanged. -/
theorem claim_C3 :
    (∀ (user_message : String) (kvs akvs : List (String × Json)),
      isAlertRequest user_message = true →
      lookupKv kvs "tool_name" = some (Json.str "get_monitors") →
      (jsonGet (Json.obj kvs) "arguments").getD (Json.obj []) = Json.obj akvs →
      hasKeyKv akvs "groupStates" = false →
      ∃ cleaned,
        invocationArgs (repairToolCall (isAlertRequest user_message) (Json.obj kvs)) =
          some cleaned ∧
        lookupKv cleaned "groupStates" = some (Json.arr [Json.str "alert"]))
    ∧ (∀ (b : Bool) (kvs akvs : List (String × Json)) (v : Json),
      (jsonGet (Json.obj kvs) "arguments").getD (Json.obj []) = Json.obj akvs →
      lookupKv akvs "groupStates" = some v →
      repairToolCall b (Json.obj kvs) = Json.obj kvs) := by
  constructor
  · intro msg kvs akvs halert htool hargs hgs
    rw [halert]
    have hrep : repairToolCall true (Json.obj kvs) =
        Json.obj (objSetKv kvs "arguments"
          (Json.obj (akvs ++ [("groupStates", Json.arr [Json.str "alert"])]))) := by
      rw [repairToolCall, if_pos (by simp only [jsonGet, htool]; simp), hargs]
      show (if hasKeyKv akvs "groupStates" = true then Json.obj kvs
            else Json.obj (objSetKv kvs "arguments"
              (Json.obj (akvs ++ [("groupStates", Json.arr [Json.str "alert"])])))) = _
      rw [if_neg (by simp [hgs])]
    rw [hrep, invocationArgs, lookupKv_objSetKv_self]
    refine ⟨cleanArgs (akvs ++ [("groupStates", Json.arr [Json.str "alert"])]), rfl, ?_⟩
    rw [cleanArgs, List.filter_append]
    have hnone : lookupKv (List.filter (fun p => !isNull p.2) akvs) "groupStates" = none :=
      lookupKv_filter_none _ (lookupKv_eq_none_of_not_hasKey hgs)
    rw [lookupKv_append_right _ hnone]
    rfl
  · intro b kvs akvs v hargs hv
    rw [repairToolCall]
    split
    · rw [hargs]
      show (if hasKeyKv akvs "groupStates" = true then Json.obj kvs
            else Json.obj (objSetKv kvs "arguments"
              (Json.obj (akvs ++ [("groupStates", Json.arr [Json.str "alert"])])))) = _
      rw [if_pos (by simp [hasKeyKv, hv])]
    · rfl

/-- C3 witness: the spec's example message and extracted call, and an
already-filtered call left untouched. -/
theorem claim_C3_witness :
    isAlertRequest "get alert monitors" = true ∧
    (∃ cleaned,
      invocationArgs (repairToolCall (isAlertRequest "get alert monitors")
        (Json.obj [("tool_name", Json.str "get_monitors"), ("arguments", Json.obj [])])) =
        some cleaned ∧
      lookupKv cleaned "groupStates" = some (Json.arr [Json.str "alert"])) ∧
    repairToolCall true (Json.obj [("tool_name", Json.str "get_monitors"),
        ("arguments", Json.obj [("groupStates", Json.str "x")])]) =
      Json.obj [("tool_name", Json.str "get_monitors"),
        ("arguments", Json.obj [("groupStates", Json.str "x")])] := by
  refine ⟨rfl, ?_, ?_⟩
  · exact claim_C3.1 "get alert monitors"
      [("tool_name", Json.str "get_monitors"), ("arguments", Json.obj [])] []
      rfl rfl rfl rfl
  · exact claim_C3.2 true
      [("tool_name", Json.str "get_monitors"),
        ("arguments", Json.obj [("groupStates", Json.str "x")])]
      [("groupStates", Json.str "x")] (Json.str "x") rfl rfl

/-- C4: the correlator accepts the first JSON-parsing line whose `id`
equals the request id, skipping non-JSON and non-matching lines; when
no line matches it yields the fixed no-matching-response error instead
of picking any other line. -/
theorem claim_C4 :
    (∀ (pre : List String) (line : String) (post : List String)
        (request_id : String) (j : Json),
      (∀ l ∈ pre, matchesLine l request_id = false) →
      json_loads line = some j → idMatchesJ j request_id = true →
      findResponse (pre ++ line :: post) request_id = some j)
    ∧ (∀ (lines : List String) (request_id : String),
      (∀ l ∈ lines, matchesLine l request_id = false) →
      findResponse lines request_id = none)
    ∧ (∀ (tool_name : String) (args : List (String × Json)) (now_ms : Nat)
        (stdout_data stderr_data : String),
      (pyStrip stdout_data).isEmpty = false →
      (∀ l ∈ splitLines (pyStrip stdout_data),
        matchesLine l ("req-" ++ toString now_ms) = false) →
      call_mcp_tool tool_name args now_ms
          (ProcOutcome.exited 0 stdout_data stderr_data) =
        ToolResult.err "Could not find valid JSON-RPC response in MCP output.") := by
  refine ⟨?_, ?_, ?_⟩
  · intro pre line post rid j hpre hp hid
    exact findResponse_first post hpre hp hid
  · intro lines rid h
    exact findResponse_all_unmatched h
  · intro tn args now out errs hne hall
    rw [call_mcp_tool]
    rw [if_neg (by decide)]
    rw [if_neg (by simp [hne])]
    rw [findResponse_all_unmatched hall]

/-- C4 witness: a stream with a diagnostic line, a non-matching id, the
matching response, and a later line with the same id; plus a stream
with no matching line. -/
theorem claim_C4_witness :
    findResponse (["junk", "\x7b\"id\":\"req-4\"\x7d"] ++
        "\x7b\"id\":\"req-5\",\"x\":1\x7d" :: ["\x7b\"id\":\"req-5\",\"y\":2\x7d"]) "req-5" =
      some (Json.obj [("id", Json.str "req-5"), ("x", Json.num "1")]) ∧
    findResponse ["junk"] "req-5" = none ∧
    call_mcp_tool "list_incidents" [] 5
        (ProcOutcome.exited 0 "\x7b\"id\":\"req-9\"\x7d" "") =
      ToolResult.err "Could not find valid JSON-RPC response in MCP output." := by
  refine ⟨?_, ?_, ?_⟩
  · exact claim_C4.1 ["junk", "\x7b\"id\":\"req-4\"\x7d"]
      "\x7b\"id\":\"req-5\",\"x\":1\x7d" ["\x7b\"id\":\"req-5\",\"y\":2\x7d"] "req-5"
      (Json.obj [("id", Json.str "req-5"), ("x", Json.num "1")])
      (by decide) rfl rfl
  · exact claim_C4.2.1 ["junk"] "req-5" (by decide)
  · exact claim_C4.2.2 "list_incidents" [] 5 "\x7b\"id\":\"req-9\"\x7d" ""
      rfl (by decide)

/-- C5 (counterexample): on a timeout the returned error is the generic
`Error calling MCP tool` message; it carries neither the pending
error-stream text nor any exit code, contradicting the claim that
timeout errors carry both. -/
theorem claim_C5_counterexample :
    call_mcp_tool "list_incidents" [] 0 (ProcOutcome.timeout "boom") =
      ToolResult.err ("Error calling MCP tool: " ++ timeoutExcStr) ∧
    hasSub ("Error calling MCP tool: " ++ timeoutExcStr) "boom" = false ∧
    hasSub ("Error calling MCP tool: " ++ timeoutExcStr) "exit code" = false :=
  ⟨rfl, rfl, rfl⟩

/-- C5 (amended): on a non-zero exit the transport returns an error
carrying the exit code and the captured error-stream text; on a timeout
it returns the generic exception message (with no exit code or stderr);
a zero exit with whitespace-only stdout yields the distinct
empty-response error, which never mentions an exit code while every
process-failure error does.  All paths return, never raise. -/
theorem claim_C5 :
    (∀ (tool_name : String) (args : List (String × Json)) (now_ms : Nat)
        (returncode : Int) (stdout_data stderr_data : String),
      returncode ≠ 0 →
      call_mcp_tool tool_name args now_ms
          (ProcOutcome.exited returncode stdout_data stderr_data) =
        ToolResult.err ("MCP server process failed with exit code " ++
          toString returncode ++ ": " ++ stderr_data)
      ∧ hasSub ("MCP server process failed with exit code " ++
          toString returncode ++ ": " ++ stderr_data) (toString returncode) = true
      ∧ hasSub ("MCP server process failed with exit code " ++
          toString returncode ++ ": " ++ stderr_data) stderr_data = true)
    ∧ (∀ (tool_name : String) (args : List (String × Json)) (now_ms : Nat)
        (pendingStderr : String),
      call_mcp_tool tool_name args now_ms (ProcOutcome.timeout pendingStderr) =
        ToolResult.err ("Error calling MCP tool: " ++ timeoutExcStr))
    ∧ (∀ (tool_name : String) (args : List (String × Json)) (now_ms : Nat)
        (stdout_data stderr_data : String),
      (pyStrip stdout_data).isEmpty = true →
      call_mcp_tool tool_name args now_ms
          (ProcOutcome.exited 0 stdout_data stderr_data) =
        ToolResult.err "Received empty response from MCP server."
      ∧ hasSub "Received empty response from MCP server." "exit code" = false
      ∧ ∀ (rc : Int) (errs : String),
          hasSub ("MCP server process failed with exit code " ++
            toString rc ++ ": " ++ errs) "exit code" = true) := by
  refine ⟨?_, ?_, ?_⟩
  · intro tn args now rc out errs hrc
    refine ⟨?_, ?_, ?_⟩
    · rw [call_mcp_tool]
      rw [if_pos (by simp [bne_iff_ne, hrc])]
    · show hasSubL (toString rc).toList
        ((("MCP server process failed with exit code ").toList ++
          (toString rc).toList ++ (": ").toList) ++ errs.toList) = true
      rw [List.append_assoc, List.append_assoc]
      exact hasSubL_mid _ _ _
    · show hasSubL errs.toList
        ((("MCP server process failed with exit code ").toList ++
          (toString rc).toList ++ (": ").toList) ++ errs.toList) = true
      exact hasSubL_append_right _ (hasSubL_of_headMatches (headMatches_refl _))
  · intro tn args now s
    rfl
  · intro tn args now out errs hempty
    refine ⟨?_, rfl, ?_⟩
    · rw [call_mcp_tool]
      rw [if_neg (by decide)]
      rw [if_pos hempty]
    · intro rc errs2
      show hasSubL ("exit code").toList
        ((("MCP server process failed with exit code ").toList ++
          (toString rc).toList ++ (": ").toList) ++ errs2.toList) = true
      refine hasSubL_append_left _ ?_
      rw [List.append_assoc]
      refine hasSubL_append_left _ ?_
      rfl

/-- C5 witness: a concrete failing exit and a concrete empty output. -/
theorem claim_C5_witness :
    call_mcp_tool "list_incidents" [] 0 (ProcOutcome.exited 2 "out" "bad stderr") =
      ToolResult.err "MCP server process failed with exit code 2: bad stderr" ∧
    call_mcp_tool "list_incidents" [] 0 (ProcOutcome.exited 0 " \n " "x") =
      ToolResult.err "Received empty response from MCP server." := by
  constructor
  · exact ((claim_C5.1 "list_incidents" [] 0 2 "out" "bad stderr" (by decide)).1).trans rfl
  · exact ((claim_C5.2.2 "list_incidents" [] 0 " \n " "x" rfl).1).trans rfl

/-- C7: the extractor's cleaning removes `//` line comments (up to the
line end) and closed `/* ... */` block comments, and the spec's example
reply parses into a `get_monitors` invocation with empty arguments. -/
theorem claim_C7 :
    (∀ (pre post : List Char), '/' ∉ pre → (∀ c ∈ post, c ≠ '\n') →
      stripLCGo (pre ++ '/' :: '/' :: post) false = pre)
    ∧ (∀ (pre mid post : List Char), '/' ∉ pre → hasStarSlash mid = false →
      stripBCGo (pre ++ '/' :: '*' :: (mid ++ '*' :: '/' :: post)) false =
        pre ++ stripBCGo post false)
    ∧ parseToolCall
        "\x7b\"tool_name\":\"get_monitors\",\"arguments\":\x7b\x7d\x7d // trailing" =
      some (Json.obj [("tool_name", Json.str "get_monitors"),
                      ("arguments", Json.obj [])]) := by
  refine ⟨?_, stripBCGo_block, rfl⟩
  intro pre post hpre hpost
  rw [stripLCGo_false_pre pre post hpre, stripLCGo_true_of_no_newline hpost]
  simp

/-- C7 witness: a concrete line comment and a concrete block comment. -/
theorem claim_C7_witness :
    stripLCGo ("ab".toList ++ '/' :: '/' :: " tail".toList) false = "ab".toList ∧
    stripBCGo ("ab".toList ++ '/' :: '*' :: (" c ".toList ++ '*' :: '/' :: "de".toList))
        false = "ab".toList ++ stripBCGo "de".toList false := by
  constructor
  · exact claim_C7.1 "ab".toList " tail".toList (by decide) (by decide)
  · exact claim_C7.2.1 "ab".toList " c ".toList "de".toList (by decide) (by decide)

/-- C8: a reply with neither a fenced block nor a brace-delimited
substring yields no tool call (not an error); the fenced block takes
precedence over the brace search; and a parsed candidate that is not an
object with a `tool_name` key is also treated as no tool call. -/
theorem claim_C8 :
    (∀ (user_message reply : String),
      fencedCandidate reply.toList = none →
      braceCandidate reply.toList = none →
      extractToolCall user_message reply = none)
    ∧ (∀ (reply : String) (c : List Char),
      fencedCandidate reply.toList = some c →
      extractCandidate reply = some ⟨c⟩)
    ∧ (∀ (user_message reply cand : String) (j : Json),
      extractCandidate reply = some cand →
      json_loads (cleanCandidate cand) = some j →
      isToolCallShape j = false →
      extractToolCall user_message reply = none) := by
  refine ⟨?_, ?_, ?_⟩
  · intro msg reply h1 h2
    rw [extractToolCall, parseToolCall, extractCandidate, h1, h2]
    rfl
  · intro reply c h
    rw [extractCandidate, h]
  · intro msg reply cand j hc hp hshape
    rw [extractToolCall, parseToolCall, hc]
    simp [hp, hshape]

/-- C8 witness: a candidate-free reply, fenced-over-brace precedence,
and a JSON object without `tool_name`. -/
theorem claim_C8_witness :
    fencedCandidate "no tool call here".toList = none ∧
    braceCandidate "no tool call here".toList = none ∧
    extractToolCall "hi" "no tool call here" = none ∧
    fencedCandidate "x ```json 1``` y \x7b2\x7d".toList = some "1".toList ∧
    extractCandidate "x ```json 1``` y \x7b2\x7d" = some "1" ∧
    json_loads (cleanCandidate "\x7b\"a\": 1\x7d") = some (Json.obj [("a", Json.num "1")]) ∧
    extractToolCall "hi" "\x7b\"a\": 1\x7d" = none := by
  refine ⟨rfl, rfl, ?_, rfl, ?_, rfl, ?_⟩
  · exact claim_C8.1 "hi" "no tool call here" rfl rfl
  · exact claim_C8.2.1 "x ```json 1``` y \x7b2\x7d" "1".toList rfl
  · exact claim_C8.2.2 "hi" "\x7b\"a\": 1\x7d" "\x7b\"a\": 1\x7d"
      (Json.obj [("a", Json.num "1")]) rfl rfl rfl

/-- C10: the transport injects
`groupStates = ["alert", "warn", "no data", "ok"]` into a monitor fetch
whose arguments lack that key — so the request written to the process
always carries a `groupStates` argument — and sends an argument map
that already has the key unchanged. -/
theorem claim_C10 :
    (∀ (args : List (String × Json)) (now_ms : Nat),
      hasKeyKv args "groupStates" = false →
      lookupKv (transportArgs "get_monitors" args) "groupStates" =
        some defaultGroupStates
      ∧ ((jsonGet (sentRequest "get_monitors" args now_ms) "params").bind
          (fun p => jsonGet p "arguments")) =
        some (Json.obj (args ++ [("groupStates", defaultGroupStates)])))
    ∧ (∀ (tool_name : String) (args : List (String × Json)),
      hasKeyKv args "groupStates" = true → transportArgs tool_name args = args)
    ∧ (∀ (args : List (String × Json)),
      hasKeyKv (transportArgs "get_monitors" args) "groupStates" = true) := by
  refine ⟨?_, ?_, ?_⟩
  · intro args now h
    have htr : transportArgs "get_monitors" args =
        args ++ [("groupStates", defaultGroupStates)] := by
      rw [transportArgs, if_pos (by simp [h])]
    have hnone : lookupKv args "groupStates" = none :=
      lookupKv_eq_none_of_not_hasKey h
    constructor
    · rw [htr, lookupKv_append_right _ hnone]
      rfl
    · rw [sentRequest, htr, buildRpcRequest]
      rfl
  · intro tn args h
    rw [transportArgs, if_neg (by simp [h])]
  · intro args
    cases h : hasKeyKv args "groupStates" with
    | true =>
      rw [transportArgs, if_neg (by simp [h])]
      exact h
    | false =>
      have hnone : lookupKv args "groupStates" = none :=
        lookupKv_eq_none_of_not_hasKey h
      rw [transportArgs, if_pos (by simp [h]), hasKeyKv,
        lookupKv_append_right _ hnone]
      rfl

/-- C10 witness: injection into an empty argument map and preservation
of an existing `groupStates` value. -/
theorem claim_C10_witness :
    lookupKv (transportArgs "get_monitors" []) "groupStates" =
      some defaultGroupStates ∧
    transportArgs "get_monitors" [("groupStates", Json.str "x")] =
      [("groupStates", Json.str "x")] ∧
    hasKeyKv (transportArgs "get_monitors" []) "groupStates" = true :=
  ⟨(claim_C10.1 [] 0 rfl).1,
   claim_C10.2.1 "get_monitors" [("groupStates", Json.str "x")] rfl,
   claim_C10.2.2 []⟩

end Sre
